import Mathlib

/-!
Shallow embedding of the `web-check-status-services` monitoring server
(the current variant: `Service` with JSON tags, ticker-based `wsHandler`,
`monitorServices` over a shared slice, `restartServices` hot reload).

File I/O, the INI parser, wall clocks and TCP dials are modelled as
oracle parameters: a parsed config (or `none` for a load error), a stat
result (or `none` for a stat error), and a dial outcome (success flag
plus elapsed milliseconds).  Everything downstream of those oracles is
translated directly from the Go source.
-/

/-- The `Service` struct.  `ID`, `Description`, `Status` and
`ResponseTime` carry JSON tags `id`, `Description`, `Status`,
`ResponseTime`; `IP` and `Port` are tagged `json:"-"`. -/
structure Service where
  ID : Nat
  Description : String
  IP : String
  Port : String
  Status : String
  ResponseTime : String
deriving DecidableEq, Repr

/-- A parsed `config.ini`: the `general` section's `port`,
`response_time` (kept as the raw string, since `strconv.Atoi` is applied
to it) and `pathlog` keys, and the `services` section's keys as an
ordered list of (name, value) pairs. -/
structure IniConfig where
  port : String
  responseTimeRaw : String
  pathlog : String
  serviceKeys : List (String × String)
deriving DecidableEq, Repr

/-- Decimal value of a digit string. -/
def digitsToNat (l : List Char) : Nat :=
  l.foldl (fun a c => 10 * a + (c.toNat - 48)) 0

/-- The digit part of `strconv.Atoi`: at least one character, all
decimal digits. -/
def goAtoiCore (l : List Char) (sign : Int) : Option Int :=
  if l ≠ [] ∧ l.all Char.isDigit then some (sign * digitsToNat l) else none

/-- Go `strconv.Atoi`: optional sign followed by at least one decimal
digit; anything else is an error (`none`).  Overflow is ignored since we
return an unbounded `Int`. -/
def goAtoi (s : String) : Option Int :=
  match s.data with
  | '-' :: rest => goAtoiCore rest (-1)
  | '+' :: rest => goAtoiCore rest 1
  | l => goAtoiCore l 1

/-- Go `strings.Split(s, ":")` on the character list: split at every
colon, keeping empty parts; the empty string yields one empty part. -/
def splitColonAux : List Char → List (List Char)
  | [] => [[]]
  | c :: rest =>
    if c = ':' then [] :: splitColonAux rest
    else
      match splitColonAux rest with
      | [] => [[c]]
      | h :: t => (c :: h) :: t

/-- Go `strings.Split(s, ":")`. -/
def splitColon (s : String) : List String :=
  (splitColonAux s.data).map String.mk

/-- The `services`-section loop of `loadConfig`: `for i, key := range
serviceSection.Keys()`, splitting each value on ":" and appending a
`Service` with `ID = i+1` only when the split yields exactly two
parts.  `n` is the index of the first key of `keys` among all keys. -/
def loadServicesAux : Nat → List (String × String) → List Service
  | _, [] => []
  | n, (name, value) :: rest =>
    let serviceData := splitColon value
    if serviceData.length = 2 then
      { ID := n + 1, Description := name, IP := serviceData[0]!,
        Port := serviceData[1]!, Status := "unknown", ResponseTime := "" }
        :: loadServicesAux (n + 1) rest
    else
      loadServicesAux (n + 1) rest

/-- The full `services` list built by `loadConfig`. -/
def loadServices (keys : List (String × String)) : List Service :=
  loadServicesAux 0 keys

/-- `loadConfig` after a successful `ini.Load`: reads the port, converts
`response_time` (falling back to 10 on an `Atoi` error, with a log
line), builds the services list and reads `pathlog`.  Returns
`(services, port, responseTime, pathLog)`. -/
def loadConfig (cfg : IniConfig) : List Service × String × Int × String :=
  let responseTime := (goAtoi cfg.responseTimeRaw).getD 10
  (loadServices cfg.serviceKeys, cfg.port, responseTime, cfg.pathlog)

/-- The package-level mutable state: `services`, `latestServicesState`,
`serverPort`, `responseTime`, `pathLog` and `lastModTime` (modelled as
an integer timestamp). -/
structure SysState where
  services : List Service
  latestServicesState : List Service
  serverPort : String
  responseTime : Int
  pathLog : String
  lastModTime : Int
deriving DecidableEq, Repr

/-- Outcome of a state-mutating step: either a new state, or process
termination via `log.Fatal` / `log.Fatalf` (which logs `logMsg` and
exits with the given status code). -/
inductive RunOutcome where
  | ok (st : SysState)
  | exits (code : Nat) (logMsg : String)
deriving DecidableEq, Repr

/-- The startup sequence of `main` up to spawning the goroutines: load
the config (`log.Fatal` on error, i.e. exit status 1), then initialise
`latestServicesState` as a copy of `services` and record the initial
mod time.  `file` is `none` when `ini.Load` fails; `initModTime` is the
initial `os.Stat` mod time. -/
def startup (file : Option IniConfig) (initModTime : Int) : RunOutcome :=
  match file with
  | none => .exits 1 "Erro ao carregar arquivo de configuração:"
  | some cfg =>
    let (svcs, port, rt, pl) := loadConfig cfg
    .ok { services := svcs, latestServicesState := svcs,
          serverPort := port, responseTime := rt, pathLog := pl,
          lastModTime := initModTime }

/-- `restartServices`: under the registry lock, re-run `loadConfig`
(`log.Fatalf` on error, exit status 1), refresh `lastModTime` from a
fresh stat (`statTime`), then rebuild `latestServicesState` as a copy of
the new `services` slice. -/
def restartServices (st : SysState) (file : Option IniConfig)
    (statTime : Int) : RunOutcome :=
  match file with
  | none => .exits 1 "Erro ao recarregar arquivo de configuração:"
  | some cfg =>
    let (svcs, port, rt, pl) := loadConfig cfg
    .ok { st with
          services := svcs, latestServicesState := svcs,
          serverPort := port, responseTime := rt, pathLog := pl,
          lastModTime := statTime }

/-- `hasConfigFileChanged`: stat the config file; on a stat error
(`statResult = none`) log and report no change; otherwise report a
change (and advance `lastModTime`) exactly when the mod time is strictly
after the stored one.  Returns (changed, new `lastModTime`). -/
def hasConfigFileChanged (statResult : Option Int) (lastModTime : Int) :
    Bool × Int :=
  match statResult with
  | none => (false, lastModTime)
  | some modTime =>
    if lastModTime < modTime then (true, modTime) else (false, lastModTime)

/-- Outcome of one TCP dial attempt: whether `net.DialTimeout`
succeeded, and the wall-clock milliseconds elapsed when it returned. -/
structure DialOutcome where
  ok : Bool
  elapsedMs : Nat
deriving DecidableEq, Repr

/-- `checkService`: one bounded-timeout TCP dial; `"red"` plus the
formatted elapsed time on error, `"green"` plus the formatted elapsed
time on success.  The elapsed milliseconds are rendered with
`strconv.FormatInt(·, 10)` and the suffix `" ms"`. -/
def checkService (descr ip port : String) (d : DialOutcome) :
    String × String :=
  let rt := toString d.elapsedMs ++ " ms"
  if d.ok then ("green", rt) else ("red", rt)

/-- One probe of endpoint `i` in the monitor loop body: run
`checkService` on `services[i]`, store the result back into
`services[i]`, and copy `services[i]` into `latestServicesState[i]`
under the lock.  Out-of-range indices leave the state unchanged (the
loop never produces them). -/
def probeStep (st : SysState) (i : Nat) (d : DialOutcome) : SysState :=
  if h : i < st.services.length then
    let s0 := st.services.get ⟨i, h⟩
    let res := checkService s0.Description s0.IP s0.Port d
    let s1 := { s0 with Status := res.1, ResponseTime := res.2 }
    { st with
      services := st.services.set i s1,
      latestServicesState := st.latestServicesState.set i s1 }
  else st

/-- One iteration of the inner loop of `monitorServices`: first check
`hasConfigFileChanged`; on a change, reload via `restartServices` (and
break out of the pass); otherwise probe endpoint `i`. -/
def monitorBody (st : SysState) (i : Nat) (statResult : Option Int)
    (file : Option IniConfig) (statTime : Int) (d : DialOutcome) :
    RunOutcome :=
  let chk := hasConfigFileChanged statResult st.lastModTime
  if chk.1 then
    restartServices { st with lastModTime := chk.2 } file statTime
  else
    .ok (probeStep st i d)

/-- Observable events of one `wsHandler` worker: acquiring and releasing
the registry mutex `mu`, and a network write (`conn.WriteJSON`) of a
payload. -/
inductive WsEvent where
  | lockAcquire
  | lockRelease
  | netWrite (payload : List Service)
deriving DecidableEq, Repr

/-- One outcome of the `select` in the `wsHandler` loop: either a ticker
tick (together with the registry contents at that instant and whether
the `WriteJSON` call would succeed), or the request context being
cancelled (client disconnect). -/
inductive WsInput where
  | tick (reg : List Service) (writeOk : Bool)
  | cancel
deriving DecidableEq, Repr

/-- Whether a `select` outcome is a tick whose write succeeds (a
`cancel` imposes no write). -/
def writeSucceeds : WsInput → Bool
  | .tick _ ok => ok
  | .cancel => true

/-- The `for { select { ... } }` loop of `wsHandler`.  On a tick: lock,
send the registry if non-empty (returning — after unlocking — if the
write fails), unlock, continue.  On context cancellation: return.  The
trace of a finite prefix of `select` outcomes. -/
def wsLoop : List WsInput → List WsEvent
  | [] => []
  | .cancel :: _ => []
  | .tick reg ok :: rest =>
    if reg.length > 0 then
      if ok then
        .lockAcquire :: .netWrite reg :: .lockRelease :: wsLoop rest
      else
        [.lockAcquire, .netWrite reg, .lockRelease]
    else
      .lockAcquire :: .lockRelease :: wsLoop rest

/-- The whole `wsHandler` body after a successful upgrade: lock, send
the registry if non-empty (returning — after unlocking — on a write
error), unlock, then enter the ticker loop.  `initReg` is the registry
at connect time and `initWriteOk` whether the initial `WriteJSON`
succeeds. -/
def wsHandlerTrace (initReg : List Service) (initWriteOk : Bool)
    (inputs : List WsInput) : List WsEvent :=
  if initReg.length > 0 then
    if initWriteOk then
      .lockAcquire :: .netWrite initReg :: .lockRelease :: wsLoop inputs
    else
      [.lockAcquire, .netWrite initReg, .lockRelease]
  else
    .lockAcquire :: .lockRelease :: wsLoop inputs

/-- The payloads written to the client, in order, during a trace. -/
def messagesSent (t : List WsEvent) : List (List Service) :=
  t.filterMap fun e =>
    match e with
    | .netWrite p => some p
    | _ => none

/-- Net effect of one event on the mutex hold count. -/
def lockDelta : WsEvent → Int
  | .lockAcquire => 1
  | .lockRelease => -1
  | .netWrite _ => 0

/-- Mutex hold count after a sequence of events. -/
def lockDepth : List WsEvent → Int
  | [] => 0
  | e :: t => lockDelta e + lockDepth t

/-- The mutex is held at the instant event `k` of trace `t` fires. -/
def lockHeldBefore (t : List WsEvent) (k : Nat) : Prop :=
  0 < lockDepth (t.take k)

/-- Traces that are concatenations of critical sections: each section
acquires the lock, optionally performs one network write, and releases
the lock. -/
inductive Blocked : List WsEvent → Prop where
  | nil : Blocked []
  | wblock (p : List Service) (t : List WsEvent) (ht : Blocked t) :
      Blocked (.lockAcquire :: .netWrite p :: .lockRelease :: t)
  | eblock (t : List WsEvent) (ht : Blocked t) :
      Blocked (.lockAcquire :: .lockRelease :: t)

/-- The snapshots the spec says a worker delivers for a sequence of
`select` outcomes: one message per tick with a non-empty registry,
stopping at the first cancellation. -/
def ticksDelivered : List WsInput → List (List Service)
  | [] => []
  | .cancel :: _ => []
  | .tick reg _ :: rest =>
    (if reg.length > 0 then [reg] else []) ++ ticksDelivered rest

/-- A JSON value as produced for `Service` fields: an integer or a
string. -/
inductive JsonVal where
  | num (n : Nat)
  | str (s : String)
deriving DecidableEq, Repr

/-- `encoding/json` marshalling of one `Service` value: exported fields
in declaration order under their tag names; `IP` and `Port` carry the
tag `json:"-"` and are omitted. -/
def serviceToJSON (s : Service) : List (String × JsonVal) :=
  [("id", .num s.ID), ("Description", .str s.Description),
   ("Status", .str s.Status), ("ResponseTime", .str s.ResponseTime)]

/-- `conn.WriteJSON(latestServicesState)`: the JSON array sent to a
client, one object per service. -/
def registryToJSON (l : List Service) : List (List (String × JsonVal)) :=
  l.map serviceToJSON

/-- Two services agree on every field except possibly `IP` and
`Port`. -/
def visiblyEqual (a b : Service) : Prop :=
  a.ID = b.ID ∧ a.Description = b.Description ∧ a.Status = b.Status ∧
    a.ResponseTime = b.ResponseTime

/-- The per-index static identity of a registry entry: its id and
description, which tie it to a config endpoint. -/
def staticFields (s : Service) : Nat × String :=
  (s.ID, s.Description)

/-- States of the package-level variables reachable by the program:
the state right after `startup`, followed by any interleaving of
monitor-loop probe bodies and successful `restartServices` reloads (the
only two mutations of `services` / `latestServicesState`). -/
inductive Reachable : SysState → Prop where
  | boot (cfg : IniConfig) (t : Int) (st : SysState)
      (h : startup (some cfg) t = RunOutcome.ok st) : Reachable st
  | probe (st : SysState) (i : Nat) (d : DialOutcome)
      (h : Reachable st) : Reachable (probeStep st i d)
  | reload (st : SysState) (file : Option IniConfig) (t : Int)
      (st' : SysState) (h : Reachable st)
      (hr : restartServices st file t = RunOutcome.ok st') : Reachable st'

/-- A sample service record, used to instantiate theorems. -/
def demoService : Service :=
  { ID := 1, Description := "svc", IP := "127.0.0.1", Port := "80",
    Status := "green", ResponseTime := "5 ms" }

/-- A sample parsed config with one well-formed service entry. -/
def demoCfg : IniConfig :=
  { port := "8080", responseTimeRaw := "10", pathlog := "./logs",
    serviceKeys := [("svc", "127.0.0.1:80")] }

/-- A sample parsed config whose `response_time` does not parse as an
integer. -/
def badIntervalCfg : IniConfig :=
  { port := "8080", responseTimeRaw := "abc", pathlog := "./logs",
    serviceKeys := [("svc", "127.0.0.1:80")] }

/-- The state `startup` builds from `demoCfg`. -/
def demoState : SysState :=
  { services := [{ ID := 1, Description := "svc", IP := "127.0.0.1",
                   Port := "80", Status := "unknown", ResponseTime := "" }],
    latestServicesState :=
      [{ ID := 1, Description := "svc", IP := "127.0.0.1", Port := "80",
         Status := "unknown", ResponseTime := "" }],
    serverPort := "8080", responseTime := 10, pathLog := "./logs",
    lastModTime := 0 }

/-- `demoService` with a different host and port but identical visible
fields. -/
def demoAltService : Service :=
  { ID := 1, Description := "svc", IP := "10.0.0.9", Port := "443",
    Status := "green", ResponseTime := "5 ms" }

/-- A concrete `services` section with a value lacking a colon, a value
with two colons, and a well-formed value. -/
def mixedKeys : List (String × String) :=
  [("a", "host"), ("b", "h:p:q"), ("c", "h:p")]

/-- The single service `loadConfig` keeps from `mixedKeys`. -/
def keptService : Service :=
  { ID := 3, Description := "c", IP := "h", Port := "p",
    Status := "unknown", ResponseTime := "" }

/-! ## Helper lemmas -/

/-- Every service built by the `loadConfig` services loop starts with
status `"unknown"` and an empty response time. -/
theorem loadServicesAux_reset :
    ∀ (n : Nat) (keys : List (String × String)) (s : Service),
      s ∈ loadServicesAux n keys →
      s.Status = "unknown" ∧ s.ResponseTime = "" := by
  intro n keys
  induction keys generalizing n with
  | nil => intro s hs; simp [loadServicesAux] at hs
  | cons kv rest ih =>
    intro s hs
    obtain ⟨name, value⟩ := kv
    simp only [loadServicesAux] at hs
    split at hs
    · rcases List.mem_cons.mp hs with hs | hs
      · subst hs; exact ⟨rfl, rfl⟩
      · exact ih (n + 1) s hs
    · exact ih (n + 1) s hs

/-- A two-element list is determined by its first two entries. -/
theorem eq_pair_of_length_two (l : List String) (h : l.length = 2) :
    l = [l[0]!, l[1]!] := by
  match l, h with
  | [a, b], _ => rfl

/-- Position bookkeeping of the `loadConfig` services loop: every
produced service comes from a key at some index `i`, its id is the
start index plus `i` plus one, and its host and port are the two halves
of that key's value. -/
theorem mem_loadServicesAux_position :
    ∀ (n : Nat) (keys : List (String × String)) (s : Service),
      s ∈ loadServicesAux n keys →
      ∃ i, ∃ hi : i < keys.length,
        s.ID = n + i + 1 ∧ s.Description = (keys.get ⟨i, hi⟩).1 ∧
          splitColon (keys.get ⟨i, hi⟩).2 = [s.IP, s.Port] := by
  intro n keys
  induction keys generalizing n with
  | nil => intro s hs; simp [loadServicesAux] at hs
  | cons kv rest ih =>
    intro s hs
    obtain ⟨name, value⟩ := kv
    simp only [loadServicesAux] at hs
    split at hs
    · rename_i hlen
      rcases List.mem_cons.mp hs with hs | hs
      · refine ⟨0, by simp, ?_, ?_, ?_⟩
        · subst hs; rfl
        · subst hs; rfl
        · subst hs
          simpa using eq_pair_of_length_two (splitColon value) hlen
      · obtain ⟨i, hi, h1, h2, h3⟩ := ih (n + 1) s hs
        exact ⟨i + 1, by simpa using hi, by omega, h2, h3⟩
    · obtain ⟨i, hi, h1, h2, h3⟩ := ih (n + 1) s hs
      exact ⟨i + 1, by simpa using hi, by omega, h2, h3⟩

/-- `messagesSent` ignores a lock acquisition. -/
theorem messagesSent_cons_acquire (t : List WsEvent) :
    messagesSent (WsEvent.lockAcquire :: t) = messagesSent t := rfl

/-- `messagesSent` ignores a lock release. -/
theorem messagesSent_cons_release (t : List WsEvent) :
    messagesSent (WsEvent.lockRelease :: t) = messagesSent t := rfl

/-- `messagesSent` records a network write. -/
theorem messagesSent_cons_write (p : List Service) (t : List WsEvent) :
    messagesSent (WsEvent.netWrite p :: t) = p :: messagesSent t := rfl

/-- The ticker loop of `wsHandler` only produces balanced critical
sections: acquire, at most one write, release. -/
theorem blocked_wsLoop (inputs : List WsInput) : Blocked (wsLoop inputs) := by
  induction inputs with
  | nil => exact .nil
  | cons x rest ih =>
    cases x with
    | cancel => exact .nil
    | tick reg ok =>
      by_cases h : reg.length > 0
      · cases ok
        · simpa [wsLoop, h] using Blocked.wblock reg [] .nil
        · simpa [wsLoop, h] using Blocked.wblock reg _ ih
      · simpa [wsLoop, h] using Blocked.eblock _ ih

/-- The whole `wsHandler` trace only produces balanced critical
sections. -/
theorem blocked_wsHandlerTrace (initReg : List Service) (initWriteOk : Bool)
    (inputs : List WsInput) :
    Blocked (wsHandlerTrace initReg initWriteOk inputs) := by
  by_cases h : initReg.length > 0
  · cases initWriteOk
    · simpa [wsHandlerTrace, h] using Blocked.wblock initReg [] .nil
    · simpa [wsHandlerTrace, h] using Blocked.wblock initReg _ (blocked_wsLoop inputs)
  · simpa [wsHandlerTrace, h] using Blocked.eblock _ (blocked_wsLoop inputs)

/-- In a trace made of balanced critical sections, every network write
fires while the mutex is held. -/
theorem blocked_netWrite_lockHeld (t : List WsEvent) (hb : Blocked t) :
    ∀ (k : Nat) (p : List Service),
      t.get? k = some (WsEvent.netWrite p) → lockHeldBefore t k := by
  induction hb with
  | nil => intro k p hk; simp at hk
  | wblock q t' ht' ih =>
    intro k p hk
    rcases k with _ | (_ | (_ | m))
    · simp at hk
    · unfold lockHeldBefore
      simp [lockDepth, lockDelta]
    · simp at hk
    · have hk' : t'.get? m = some (WsEvent.netWrite p) := by
        simpa using hk
      have hrec := ih m p hk'
      unfold lockHeldBefore at hrec ⊢
      have heq : lockDepth (List.take (m + 1 + 1 + 1)
          (WsEvent.lockAcquire :: WsEvent.netWrite q ::
            WsEvent.lockRelease :: t')) = lockDepth (List.take m t') := by
        simp [lockDepth, lockDelta, List.take_succ_cons]
      rw [heq]
      exact hrec
  | eblock t' ht' ih =>
    intro k p hk
    rcases k with _ | (_ | m)
    · simp at hk
    · simp at hk
    · have hk' : t'.get? m = some (WsEvent.netWrite p) := by
        simpa using hk
      have hrec := ih m p hk'
      unfold lockHeldBefore at hrec ⊢
      have heq : lockDepth (List.take (m + 1 + 1)
          (WsEvent.lockAcquire :: WsEvent.lockRelease :: t')) =
          lockDepth (List.take m t') := by
        simp [lockDepth, lockDelta, List.take_succ_cons]
      rw [heq]
      exact hrec

/-- Under fully successful writes, the ticker loop delivers exactly the
non-empty registry snapshots of the ticks before the first
cancellation. -/
theorem messagesSent_wsLoop (inputs : List WsInput)
    (h : inputs.all writeSucceeds = true) :
    messagesSent (wsLoop inputs) = ticksDelivered inputs := by
  induction inputs with
  | nil => rfl
  | cons x rest ih =>
    cases x with
    | cancel => rfl
    | tick reg ok =>
      simp only [List.all_cons, Bool.and_eq_true, writeSucceeds] at h
      obtain ⟨hok, hrest⟩ := h
      subst hok
      by_cases hr : reg.length > 0
      · simp [wsLoop, ticksDelivered, hr, messagesSent_cons_acquire,
          messagesSent_cons_write, messagesSent_cons_release, ih hrest]
      · simp [wsLoop, ticksDelivered, hr, messagesSent_cons_acquire,
          messagesSent_cons_release, ih hrest]

/-! ## Claim theorems -/

/-- C3, counterexample: a config whose `response_time` value does not
parse as an integer does NOT terminate the process — `startup` succeeds
and proceeds with the substitute value 10. -/
theorem c3_malformed_interval_not_fatal_counterexample :
    goAtoi badIntervalCfg.responseTimeRaw = none ∧
    ∃ st, startup (some badIntervalCfg) 0 = RunOutcome.ok st ∧
      st.responseTime = 10 := by
  refine ⟨by decide, demoState, by decide, rfl⟩

/-- C3, amended: a malformed poll interval in the configuration is not
fatal; `loadConfig` logs the conversion error and substitutes the
default of 10 seconds, and startup proceeds normally with that value. -/
theorem c3_amended_default_interval (cfg : IniConfig) (t : Int)
    (h : goAtoi cfg.responseTimeRaw = none) :
    ∃ st, startup (some cfg) t = RunOutcome.ok st ∧ st.responseTime = 10 := by
  refine ⟨_, rfl, ?_⟩
  show (goAtoi cfg.responseTimeRaw).getD 10 = 10
  rw [h]
  rfl

/-- C3, witness for the amended theorem at a concrete malformed
config. -/
theorem c3_amended_default_interval_witness :
    ∃ st, startup (some badIntervalCfg) 5 = RunOutcome.ok st ∧
      st.responseTime = 10 :=
  c3_amended_default_interval badIntervalCfg 5 (by decide)

/-- C5: a successful reload replaces the registry with a snapshot
re-derived entirely from the new source: `latestServicesState` becomes a
copy of the freshly loaded services, its length is the new endpoint
list's length, and every entry's status is reset to `"unknown"` with an
empty response time (nothing is carried over from the previous
state). -/
theorem c5_reload_resets_registry (st : SysState) (cfg : IniConfig)
    (t : Int) :
    ∃ st', restartServices st (some cfg) t = RunOutcome.ok st' ∧
      st'.latestServicesState = st'.services ∧
      st'.services = (loadConfig cfg).1 ∧
      st'.latestServicesState.length = (loadConfig cfg).1.length ∧
      ∀ s ∈ st'.latestServicesState,
        s.Status = "unknown" ∧ s.ResponseTime = "" :=
  ⟨_, rfl, rfl, rfl, rfl,
    fun s hs => loadServicesAux_reset 0 cfg.serviceKeys s hs⟩

/-- C5, witness at a concrete state and config. -/
theorem c5_reload_resets_registry_witness :
    ∃ st', restartServices demoState (some demoCfg) 7 = RunOutcome.ok st' ∧
      st'.latestServicesState = st'.services ∧
      st'.services = (loadConfig demoCfg).1 ∧
      st'.latestServicesState.length = (loadConfig demoCfg).1.length ∧
      ∀ s ∈ st'.latestServicesState,
        s.Status = "unknown" ∧ s.ResponseTime = "" :=
  c5_reload_resets_registry demoState demoCfg 7

/-- C6: a config load failure during a reload attempt terminates the
process with a non-zero exit status after logging the cause. -/
theorem c6_reload_failure_fatal (st : SysState) (t : Int) :
    ∃ code logMsg, restartServices st none t = RunOutcome.exits code logMsg ∧
      code ≠ 0 ∧ logMsg ≠ "" :=
  ⟨1, "Erro ao recarregar arquivo de configuração:", rfl, by decide, by decide⟩

/-- C6, witness at a concrete state. -/
theorem c6_reload_failure_fatal_witness :
    ∃ code logMsg, restartServices demoState none 3 =
        RunOutcome.exits code logMsg ∧ code ≠ 0 ∧ logMsg ≠ "" :=
  c6_reload_failure_fatal demoState 3

/-- C8: the probe returns `"red"` iff the dial fails and `"green"` iff
it succeeds, and in both cases the second component is the elapsed
wall-clock milliseconds rendered in decimal with the `" ms"` suffix.
(The probe is a pure function of a single dial outcome: it performs
exactly one dial, no retries, and touches no shared state.) -/
theorem c8_check_service_contract (descr ip port : String)
    (d : DialOutcome) :
    ((checkService descr ip port d).1 = "red" ↔ d.ok = false) ∧
    ((checkService descr ip port d).1 = "green" ↔ d.ok = true) ∧
    (checkService descr ip port d).2 = toString d.elapsedMs ++ " ms" := by
  obtain ⟨ok, ms⟩ := d
  cases ok <;> simp [checkService]

/-- C10: a stat error during the periodic change check makes
`hasConfigFileChanged` report no change and keep `lastModTime`; the
monitor-loop iteration then performs an ordinary probe of the existing
configuration (no reload, no exit).  A later successful stat triggers a
change exactly when the mod time advanced. -/
theorem c10_stat_failure_no_reload :
    (∀ last : Int, hasConfigFileChanged none last = (false, last)) ∧
    (∀ (st : SysState) (i : Nat) (file : Option IniConfig) (t : Int)
        (d : DialOutcome),
        monitorBody st i none file t d = RunOutcome.ok (probeStep st i d)) ∧
    (∀ t last : Int, hasConfigFileChanged (some t) last =
        if last < t then (true, t) else (false, last)) :=
  ⟨fun _ => rfl, fun _ _ _ _ _ => rfl, fun _ _ => rfl⟩

/-- C1, counterexample: it is not true that a `wsHandler` worker never
holds the registry mutex during a network write — on a one-service
registry, the very first `WriteJSON` (trace position 1) fires with the
mutex held. -/
theorem c1_lock_during_write_counterexample :
    ¬ (∀ (k : Nat) (p : List Service),
        (wsHandlerTrace [demoService] true []).get? k =
          some (WsEvent.netWrite p) →
        ¬ lockHeldBefore (wsHandlerTrace [demoService] true []) k) := by
  intro hclaim
  refine hclaim 1 [demoService] rfl ?_
  unfold lockHeldBefore
  decide

/-- C1, amended: each `wsHandler` worker holds the registry mutex
DURING every network write of the snapshot: `WriteJSON` is always
called between `mu.Lock()` and `mu.Unlock()`, so the lock is held
across the network I/O rather than only for a snapshot copy. -/
theorem c1_amended_write_under_lock (initReg : List Service)
    (initWriteOk : Bool) (inputs : List WsInput) (k : Nat)
    (p : List Service)
    (h : (wsHandlerTrace initReg initWriteOk inputs).get? k =
      some (WsEvent.netWrite p)) :
    lockHeldBefore (wsHandlerTrace initReg initWriteOk inputs) k :=
  blocked_netWrite_lockHeld _
    (blocked_wsHandlerTrace initReg initWriteOk inputs) k p h

/-- C1, witness for the amended theorem at a concrete trace. -/
theorem c1_amended_write_under_lock_witness :
    lockHeldBefore (wsHandlerTrace [demoService] true
      [WsInput.tick [demoService] true]) 4 :=
  c1_amended_write_under_lock [demoService] true
    [WsInput.tick [demoService] true] 4 [demoService] rfl

/-- C2: in every reachable program state, the registry
`latestServicesState` has the same length as the active `services` list
and agrees with it index by index on the entries' ids and descriptions
(a reload replaces both under the lock as a whole, never partially). -/
theorem c2_registry_matches_services (st : SysState) (h : Reachable st) :
    st.latestServicesState.length = st.services.length ∧
    st.latestServicesState.map staticFields =
      st.services.map staticFields := by
  have key : st.latestServicesState.map staticFields =
      st.services.map staticFields := by
    induction h with
    | boot cfg t st hb =>
      simp only [startup, loadConfig, RunOutcome.ok.injEq] at hb
      subst hb
      rfl
    | probe st i d h ih =>
      by_cases hi : i < st.services.length
      · simp only [probeStep, dif_pos hi]
        rw [List.map_set, List.map_set, ih]
      · simp only [probeStep, dif_neg hi]
        exact ih
    | reload st file t st' h hr ih =>
      cases file with
      | none => simp [restartServices] at hr
      | some cfg =>
        simp only [restartServices, loadConfig, RunOutcome.ok.injEq] at hr
        subst hr
        rfl
  refine ⟨?_, key⟩
  have := congrArg List.length key
  simpa using this

/-- C2, witness at the concrete state reached by booting `demoCfg`. -/
theorem c2_registry_matches_services_witness :
    demoState.latestServicesState.length = demoState.services.length ∧
    demoState.latestServicesState.map staticFields =
      demoState.services.map staticFields :=
  c2_registry_matches_services demoState
    (Reachable.boot demoCfg 0 demoState (by decide))

/-- C4: per connection, the initial snapshot is written iff the registry
is non-empty at connect time; then, as long as writes succeed, each tick
before the first context cancellation delivers the full current registry
snapshot exactly when it is non-empty; and a failed write on a non-empty
tick ends the worker (no further events regardless of later inputs). -/
theorem c4_push_protocol :
    (∀ (initReg : List Service) (inputs : List WsInput),
        inputs.all writeSucceeds = true →
        messagesSent (wsHandlerTrace initReg true inputs) =
          (if initReg.length > 0 then [initReg] else []) ++
            ticksDelivered inputs) ∧
    (∀ (reg : List Service) (post : List WsInput), 0 < reg.length →
        wsLoop (WsInput.tick reg false :: post) =
          [WsEvent.lockAcquire, WsEvent.netWrite reg,
            WsEvent.lockRelease]) := by
  constructor
  · intro initReg inputs h
    by_cases hr : initReg.length > 0
    · simp [wsHandlerTrace, hr, messagesSent_cons_acquire,
        messagesSent_cons_write, messagesSent_cons_release,
        messagesSent_wsLoop inputs h]
    · simp [wsHandlerTrace, hr, messagesSent_cons_acquire,
        messagesSent_cons_release, messagesSent_wsLoop inputs h]
  · intro reg post hr
    simp [wsLoop, hr]

/-- C4, witness: a concrete session (non-empty initial registry, one
non-empty tick, one empty tick, then cancellation) and a concrete failed
write. -/
theorem c4_push_protocol_witness :
    (messagesSent (wsHandlerTrace [demoService] true
        [WsInput.tick [demoService] true, WsInput.tick [] true,
          WsInput.cancel]) =
      (if ([demoService] : List Service).length > 0 then [[demoService]]
        else []) ++
        ticksDelivered [WsInput.tick [demoService] true,
          WsInput.tick [] true, WsInput.cancel]) ∧
    wsLoop [WsInput.tick [demoService] false] =
      [WsEvent.lockAcquire, WsEvent.netWrite [demoService],
        WsEvent.lockRelease] :=
  ⟨c4_push_protocol.1 [demoService]
      [WsInput.tick [demoService] true, WsInput.tick [] true,
        WsInput.cancel] (by decide),
    c4_push_protocol.2 [demoService] [] (by decide)⟩

/-- C7: host and port are never serialized — the JSON object of a
service is unchanged under any change of `IP` and `Port`, it carries
exactly the fields `id`, `Description`, `Status`, `ResponseTime`, and
whole registry messages agree whenever the registries agree on all
visible fields. -/
theorem c7_host_port_not_serialized :
    (∀ a b : Service, visiblyEqual a b → serviceToJSON a = serviceToJSON b) ∧
    (∀ s : Service, (serviceToJSON s).map Prod.fst =
      ["id", "Description", "Status", "ResponseTime"]) ∧
    (∀ l1 l2 : List Service, List.Forall₂ visiblyEqual l1 l2 →
      registryToJSON l1 = registryToJSON l2) := by
  have hsvc : ∀ a b : Service, visiblyEqual a b →
      serviceToJSON a = serviceToJSON b := by
    rintro a b ⟨h1, h2, h3, h4⟩
    simp [serviceToJSON, h1, h2, h3, h4]
  refine ⟨hsvc, fun s => rfl, ?_⟩
  intro l1 l2 h
  induction h with
  | nil => rfl
  | cons hab hrest ih =>
    simp only [registryToJSON, List.map_cons] at ih ⊢
    rw [hsvc _ _ hab]
    rw [show (List.map serviceToJSON _ = List.map serviceToJSON _) from ih]

/-- C7, witness: two concrete services differing only in host and port
serialize identically, with exactly the visible fields. -/
theorem c7_host_port_not_serialized_witness :
    serviceToJSON demoService = serviceToJSON demoAltService ∧
    (serviceToJSON demoService).map Prod.fst =
      ["id", "Description", "Status", "ResponseTime"] ∧
    registryToJSON [demoService] = registryToJSON [demoAltService] :=
  ⟨c7_host_port_not_serialized.1 demoService demoAltService
      ⟨rfl, rfl, rfl, rfl⟩,
    c7_host_port_not_serialized.2.1 demoService,
    c7_host_port_not_serialized.2.2 [demoService] [demoAltService]
      (List.Forall₂.cons ⟨rfl, rfl, rfl, rfl⟩ List.Forall₂.nil)⟩

/-- C9: every service `loadConfig` returns comes from a key whose value
splits on ":" into exactly two parts (malformed entries are dropped),
with its id taken from the key's position among all keys (`i + 1`) and
its host/port from the two halves; concretely, after dropped entries the
returned ids need not be contiguous and the last id can exceed the
list's length. -/
theorem c9_load_services_filtering (keys : List (String × String))
    (s : Service) (h : s ∈ loadServices keys) :
    (∃ i, ∃ hi : i < keys.length,
        s.ID = i + 1 ∧ s.Description = (keys.get ⟨i, hi⟩).1 ∧
          splitColon (keys.get ⟨i, hi⟩).2 = [s.IP, s.Port]) ∧
    loadServices [("a", "host"), ("b", "h:p:q"), ("c", "h:p")] =
      [{ ID := 3, Description := "c", IP := "h", Port := "p",
          Status := "unknown", ResponseTime := "" }] := by
  constructor
  · have hpos := mem_loadServicesAux_position 0 keys s h
    simpa using hpos
  · decide

/-- C9, witness: the characterization applied to the single service the
concrete three-key config yields. -/
theorem c9_load_services_filtering_witness :
    (∃ i, ∃ hi : i < mixedKeys.length,
        keptService.ID = i + 1 ∧
        keptService.Description = (mixedKeys.get ⟨i, hi⟩).1 ∧
        splitColon (mixedKeys.get ⟨i, hi⟩).2 =
          [keptService.IP, keptService.Port]) ∧
    loadServices [("a", "host"), ("b", "h:p:q"), ("c", "h:p")] =
      [{ ID := 3, Description := "c", IP := "h", Port := "p",
          Status := "unknown", ResponseTime := "" }] :=
  c9_load_services_filtering mixedKeys keptService (by decide)
